import Mathlib

/-!
Verification of the SmartInspect Node.js transport core.

This file gives a shallow embedding, in Lean 4, of the transport core of the
smartinspect_nodejs repository and proves properties of its specification
against the embedded code.  The embedding mirrors the JavaScript sources:

* src/PacketQueue.js      (backlog FIFO of packets, byte-sized, oldest-drop)
* src/SchedulerQueue.js   (FIFO of scheduler commands, selective trim)
* src/SchedulerCommand.js (command wrapper and its size estimate)
* src/Scheduler.js        (stop and drain behaviour)
* src/protocol.js         (TcpProtocol / PipeProtocol state machine:
                           implConnect, implWritePacket, implDisconnect,
                           the private helpers _internalConnect, _forwardPacket,
                           _flushQueue, _reconnect, _reset)
* src/formatter.js        (BinaryFormatter compile and format)

JavaScript numbers that hold byte counts are modelled as Nat, timestamps as
Int (milliseconds) and Rat (fractional days), and JS Date.now readings are
supplied explicitly through an environment record.  Socket input and output is
modelled through a Boolean connect oracle and an explicit list of wire events.
-/

namespace SmartInspect

-- Log levels, from src/enums.js (Level).
namespace Level

def debugL : Int := 0
def verbose : Int := 1
def message : Int := 2
def warning : Int := 3
def errorL : Int := 4
def fatal : Int := 5
def control : Int := 6

end Level

/-- Color object with byte components, as produced by parseColor in
src/enums.js. -/
structure Color where
  r : UInt8
  g : UInt8
  b : UInt8
  a : UInt8
deriving DecidableEq

/-- A packet as it travels through the transport core.  JavaScript packets are
plain objects; the fields below are the union of the fields the core reads.
String-valued fields are modelled as their UTF-8 byte sequences, with none
standing for an absent (null or undefined) field. -/
structure Packet where
  packetType : Int
  level : Option Int
  title : Option (List UInt8)
  content : Option (List UInt8)
  appName : Option (List UInt8)
  sessionName : Option (List UInt8)
  hostName : Option (List UInt8)
  data : Option (List UInt8)
  name : Option (List UInt8)
  value : Option (List UInt8)
  channel : Option (List UInt8)
  streamType : Option (List UInt8)
  logEntryType : Int
  viewerId : Int
  processId : Int
  threadId : Int
  watchType : Int
  processFlowType : Int
  controlCommandType : Int
  timestampMs : Int
  color : Option Color
deriving DecidableEq

/-- A packet with every field absent or zero, used to build concrete packets
by record update. -/
def emptyPacket : Packet :=
  { packetType := 0, level := none, title := none, content := none,
    appName := none, sessionName := none, hostName := none, data := none,
    name := none, value := none, channel := none, streamType := none,
    logEntryType := 0, viewerId := 0, processId := 0, threadId := 0,
    watchType := 0, processFlowType := 0, controlCommandType := 0,
    timestampMs := 0, color := none }

/-- Byte length of an optional byte string, 0 when absent. -/
def optLen (o : Option (List UInt8)) : Nat :=
  match o with
  | none => 0
  | some b => b.length

/-- Estimated size of a packet in bytes: a 64-byte base plus the byte lengths
of title, data, content, appName, sessionName and hostName.  This is
_getPacketSize from src/PacketQueue.js and src/SchedulerCommand.js. -/
def getPacketSize (p : Packet) : Nat :=
  64 + optLen p.title + optLen p.data + optLen p.content +
    optLen p.appName + optLen p.sessionName + optLen p.hostName

/-- Fixed per-item memory overhead (the OVERHEAD constant, 0x18 = 24 bytes,
shared by src/PacketQueue.js and src/SchedulerQueue.js). -/
def OVERHEAD : Nat := 24

namespace PacketQueue

/-- Tracked size of a backlog queue: the sum over its packets of the packet
size estimate plus the per-item overhead.  The source maintains this number
incrementally in _size; here it is derived from the queue contents. -/
def queueSize (q : List Packet) : Nat :=
  (q.map (fun p => getPacketSize p + OVERHEAD)).sum

/-- The _resize loop of src/PacketQueue.js: pop from the head while the
backlog capacity is below the tracked size, counting the dropped packets.
Returns the remaining queue together with the drop count. -/
def resize (backlog : Nat) : List Packet → List Packet × Nat
  | [] => ([], 0)
  | p :: rest =>
    if backlog < queueSize (p :: rest) then
      let r := resize backlog rest
      (r.1, r.2 + 1)
    else
      (p :: rest, 0)

/-- The push operation of src/PacketQueue.js: append at the tail, then run
the _resize loop.  Returns the new queue and the number of dropped packets. -/
def push (backlog : Nat) (q : List Packet) (p : Packet) : List Packet × Nat :=
  resize backlog (q ++ [p])

/-- The drop-hook invocations made by one push: _resize calls onPacketDropped
exactly once with the total count when the count is positive, and not at
all otherwise. -/
def hookCalls (dropped : Nat) : List Nat :=
  if 0 < dropped then [dropped] else []

end PacketQueue

/-- Scheduler command kinds, from src/SchedulerAction.js. -/
inductive SchedulerAction where
  | connectA
  | writePacketA
  | disconnectA
  | dispatchA
deriving DecidableEq

/-- A scheduler command: an action together with its optional state (the
packet for WritePacket commands), from src/SchedulerCommand.js. -/
structure SchedulerCommand where
  action : SchedulerAction
  state : Option Packet
deriving DecidableEq

/-- Estimated size of a command in bytes: only WritePacket commands with a
packet have a size (the size getter of src/SchedulerCommand.js). -/
def SchedulerCommand.size (c : SchedulerCommand) : Nat :=
  if c.action = SchedulerAction.writePacketA then
    match c.state with
    | none => 0
    | some p => getPacketSize p
  else 0

namespace SchedulerQueue

/-- Whether a command is a WritePacket command. -/
def isWrite (c : SchedulerCommand) : Bool :=
  c.action = SchedulerAction.writePacketA

/-- The WritePacket commands of a queue, in order. -/
def writes (q : List SchedulerCommand) : List SchedulerCommand :=
  q.filter isWrite

/-- The non-WritePacket commands of a queue (Connect, Disconnect, Dispatch),
in order. -/
def nonWrites (q : List SchedulerCommand) : List SchedulerCommand :=
  q.filter (fun c => !isWrite c)

/-- Bytes freed by removing the given commands: each command frees its size
plus the item overhead. -/
def sumCost (l : List SchedulerCommand) : Int :=
  ((l.map (fun c => c.size + OVERHEAD)).sum : Nat)

/-- The walk of trim in src/SchedulerQueue.js: from head toward tail, remove
each WritePacket command, accumulate the freed bytes, and return as soon as
the freed bytes reach the requested size.  Non-write commands stay in place.
Returns the remaining queue, the total freed bytes and the success flag. -/
def trimLoop (n : Int) : List SchedulerCommand → Int → List SchedulerCommand × Int × Bool
  | [], freed => ([], freed, false)
  | c :: rest, freed =>
    if isWrite c then
      let freed2 := freed + (c.size : Int) + (OVERHEAD : Int)
      if n ≤ freed2 then (rest, freed2, true)
      else trimLoop n rest freed2
    else
      let r := trimLoop n rest freed
      (c :: r.1, r.2)

/-- trim of src/SchedulerQueue.js: a non-positive request succeeds without
touching the queue; otherwise run the walk with a zero accumulator. -/
def trim (n : Int) (q : List SchedulerCommand) : List SchedulerCommand × Bool :=
  if n ≤ 0 then (q, true)
  else
    let r := trimLoop n q 0
    (r.1, r.2.2)

end SchedulerQueue

namespace Scheduler

/-- Scheduler state, from src/Scheduler.js: the started and stopped flags,
the command queue, and the number of pending throttle waiters (the length of
the _throttleWaiters array). -/
structure State where
  started : Bool
  stopped : Bool
  queue : List SchedulerCommand
  waiters : Nat
deriving DecidableEq

/-- The _drain loop of src/Scheduler.js: dequeue every remaining command and
invoke implDisconnect for the Disconnect commands only.  The result is the
list of commands for which implDisconnect was invoked, in dequeue order. -/
def drainExecutions : List SchedulerCommand → List SchedulerCommand
  | [] => []
  | c :: rest =>
    if c.action = SchedulerAction.disconnectA then c :: drainExecutions rest
    else drainExecutions rest

/-- stop of src/Scheduler.js: a no-op when the scheduler is not started;
otherwise set stopped, clear started, release every throttle waiter, and run
the drain loop, leaving the queue empty.  Returns the new state and the list
of commands executed (via implDisconnect) during the drain. -/
def stop (s : State) : State × List SchedulerCommand :=
  if !s.started then (s, [])
  else
    ({ started := false, stopped := true, queue := [], waiters := 0 },
      drainExecutions s.queue)

end Scheduler

/-- The configuration fields of TcpProtocol and PipeProtocol in
src/protocol.js that govern the write and reconnect paths. -/
structure ProtocolOptions where
  reconnect : Bool
  reconnectInterval : Int
  backlogEnabled : Bool
  backlogQueue : Nat
  backlogFlushOn : Int
  backlogKeepOpen : Bool
deriving DecidableEq

/-- Derived keep-open flag: _keepOpen = !backlogEnabled || backlogKeepOpen. -/
def ProtocolOptions.keepOpen (o : ProtocolOptions) : Bool :=
  !o.backlogEnabled || o.backlogKeepOpen

/-- The constructor defaults of TcpProtocol in src/protocol.js: reconnect on,
3000 ms gate, backlog on with a 2048 KB capacity, flush level Error, keep
the connection open. -/
def defaultOptions : ProtocolOptions :=
  { reconnect := true, reconnectInterval := 3000, backlogEnabled := true,
    backlogQueue := 2048 * 1024, backlogFlushOn := Level.errorL,
    backlogKeepOpen := true }

/-- The mutable connection state of a protocol instance: the connected flag,
the sticky failed flag, the backlog queue contents, and _reconnectTickCount
(the Date.now reading of the last reconnect attempt, initially 0). -/
structure ProtocolState where
  connected : Bool
  failed : Bool
  queue : List Packet
  reconnectTickCount : Int
deriving DecidableEq

/-- The state of a freshly constructed protocol instance. -/
def initialState : ProtocolState :=
  { connected := false, failed := false, queue := [], reconnectTickCount := 0 }

/-- The execution environment of one protocol operation: the Date.now reading
taken on entry (now), the Date.now reading taken when the operation finishes
(finish), and whether a socket connect plus handshake attempt would succeed
against the current peer (connectOk). -/
structure ProtocolEnv where
  now : Int
  finish : Int
  connectOk : Bool

/-- An observable event on the wire: the LogHeader record emitted by the
handshake, or a data packet written by _internalWritePacket. -/
inductive WireEvent where
  | logHeader
  | packet (p : Packet)
deriving DecidableEq

/-- _internalConnect of src/protocol.js: resolve at once when already
connected; on a successful handshake set connected and send the LogHeader;
on failure the socket error handler clears connected and the promise
rejects.  The final Bool is true when the promise rejected. -/
def internalConnect (env : ProtocolEnv) (s : ProtocolState) :
    ProtocolState × List WireEvent × Bool :=
  if s.connected then (s, [], false)
  else if env.connectOk then
    ({ s with connected := true }, [WireEvent.logHeader], false)
  else
    ({ s with connected := false }, [], true)

/-- _reset of src/protocol.js: clear connected, clear the backlog queue,
destroy the socket, and finally stamp _reconnectTickCount with Date.now. -/
def resetState (env : ProtocolEnv) (s : ProtocolState) : ProtocolState :=
  { s with connected := false, queue := [], reconnectTickCount := env.finish }

/-- The state produced by the catch blocks of implConnect and
implWritePacket: _reset followed by _handleException, which sets failed. -/
def failState (env : ProtocolEnv) (s : ProtocolState) : ProtocolState :=
  { resetState env s with failed := true }

/-- implConnect of src/protocol.js: a no-op when already connected or when
keep-open is off; otherwise run _internalConnect, and on success set
connected and clear failed, on failure run _reset and _handleException.
The final Bool is true when the sync-mode call would throw. -/
def implConnect (o : ProtocolOptions) (env : ProtocolEnv) (s : ProtocolState) :
    ProtocolState × List WireEvent × Bool :=
  if s.connected || !o.keepOpen then (s, [], false)
  else
    let r := internalConnect env s
    if r.2.2 then (failState env r.1, r.2.1, true)
    else ({ r.1 with connected := true, failed := false }, r.2.1, false)

/-- The _reconnect helper of src/protocol.js: when the reconnect interval is
positive and less than that much time has passed since the last attempt,
return without opening a socket.  Otherwise attempt _internalConnect: on
success set connected and clear failed; on failure set failed and run _reset,
silently.  Either way an actual attempt finally stamps _reconnectTickCount
with Date.now.  The final Bool records whether an attempt was made. -/
def reconnectAttempt (o : ProtocolOptions) (env : ProtocolEnv)
    (s : ProtocolState) : ProtocolState × List WireEvent × Bool :=
  if o.reconnectInterval > 0 ∧ env.now - s.reconnectTickCount < o.reconnectInterval then
    (s, [], false)
  else
    let r := internalConnect env s
    if r.2.2 then
      ({ resetState env r.1 with failed := true }, r.2.1, true)
    else
      let s2 := { r.1 with connected := true, failed := false }
      ({ s2 with reconnectTickCount := env.finish }, r.2.1, true)

/-- The first half of _forwardPacket in src/protocol.js: when not connected,
either run the time-gated _reconnect (keep-open mode) or a bare
_internalConnect whose rejection propagates to the caller (and whose success
sets connected and clears failed). -/
def forwardConnectStep (o : ProtocolOptions) (env : ProtocolEnv)
    (s : ProtocolState) : ProtocolState × List WireEvent × Bool :=
  if !s.connected then
    if o.keepOpen then
      let r := reconnectAttempt o env s
      (r.1, r.2.1, false)
    else
      let r := internalConnect env s
      if r.2.2 then (r.1, r.2.1, true)
      else ({ r.1 with connected := true, failed := false }, r.2.1, false)
  else (s, [], false)

/-- The second half of _forwardPacket in src/protocol.js: unless the connect
step rejected, write the packet when connected, and optionally clear
connected and destroy the socket afterwards. -/
def forwardWriteStep (p : Packet) (disconnectAfter : Bool)
    (t : ProtocolState × List WireEvent × Bool) :
    ProtocolState × List WireEvent × Bool :=
  if t.2.2 then t
  else if t.1.connected then
    let written := t.2.1 ++ [WireEvent.packet p]
    if disconnectAfter then
      ({ t.1 with connected := false }, written, false)
    else (t.1, written, false)
  else t

/-- _forwardPacket of src/protocol.js. -/
def forwardPacket (o : ProtocolOptions) (env : ProtocolEnv) (p : Packet)
    (disconnectAfter : Bool) (s : ProtocolState) :
    ProtocolState × List WireEvent × Bool :=
  forwardWriteStep p disconnectAfter (forwardConnectStep o env s)

theorem internalConnect_queue (env : ProtocolEnv) (s : ProtocolState) :
    (internalConnect env s).1.queue = s.queue := by
  unfold internalConnect
  split
  · rfl
  · split <;> rfl

theorem reconnectAttempt_queue (o : ProtocolOptions) (env : ProtocolEnv)
    (s : ProtocolState) :
    (reconnectAttempt o env s).1.queue = s.queue ∨
      (reconnectAttempt o env s).1.queue = [] := by
  unfold reconnectAttempt
  split
  · exact Or.inl rfl
  · dsimp only
    split
    · exact Or.inr rfl
    · exact Or.inl (internalConnect_queue env s)

theorem forwardConnectStep_queue (o : ProtocolOptions) (env : ProtocolEnv)
    (s : ProtocolState) :
    (forwardConnectStep o env s).1.queue = s.queue ∨
      (forwardConnectStep o env s).1.queue = [] := by
  unfold forwardConnectStep
  split
  · split
    · dsimp only
      exact reconnectAttempt_queue o env s
    · dsimp only
      split
      · exact Or.inl (internalConnect_queue env s)
      · exact Or.inl (internalConnect_queue env s)
  · exact Or.inl rfl

theorem forwardWriteStep_queue (p : Packet) (d : Bool)
    (t : ProtocolState × List WireEvent × Bool) :
    (forwardWriteStep p d t).1.queue = t.1.queue := by
  unfold forwardWriteStep
  split
  · rfl
  · split
    · dsimp only
      split <;> rfl
    · rfl

/-- The queue left behind by _forwardPacket is the incoming queue or, when a
failed reconnect ran _reset, the empty queue; it never grows. -/
theorem forwardPacket_queue (o : ProtocolOptions) (env : ProtocolEnv)
    (p : Packet) (d : Bool) (s : ProtocolState) :
    (forwardPacket o env p d s).1.queue = s.queue ∨
      (forwardPacket o env p d s).1.queue = [] := by
  unfold forwardPacket
  rw [forwardWriteStep_queue]
  exact forwardConnectStep_queue o env s

/-- The _flushQueue loop of src/protocol.js, with explicit fuel: pop the
oldest packet and forward it (never disconnecting after), until the queue is
empty or a forward rejects.  Each iteration pops exactly one packet, so fuel
equal to the queue length makes the fuel variant exact. -/
def flushQueueAux (o : ProtocolOptions) (env : ProtocolEnv) :
    Nat → ProtocolState → ProtocolState × List WireEvent × Bool
  | 0, s => (s, [], false)
  | fuel + 1, s =>
    match s.queue with
    | [] => (s, [], false)
    | p :: rest =>
      let s1 : ProtocolState := { s with queue := rest }
      let r := forwardPacket o env p false s1
      if r.2.2 then r
      else
        let r2 := flushQueueAux o env fuel r.1
        (r2.1, r.2.1 ++ r2.2.1, r2.2.2)

/-- _flushQueue of src/protocol.js. -/
def flushQueue (o : ProtocolOptions) (env : ProtocolEnv) (s : ProtocolState) :
    ProtocolState × List WireEvent × Bool :=
  flushQueueAux o env s.queue.length s

/-- Default level of a packet without a level field (packet.level ??
Level.Message in src/protocol.js). -/
def packetLevel (p : Packet) : Int :=
  match p.level with
  | none => Level.message
  | some l => l

/-- implWritePacket of src/protocol.js: drop the record when disconnected
with reconnect disabled and keep-open set; with the backlog enabled, a packet
at or above the flush level (and not Control) flushes the queue and is then
forwarded, while any other packet is pushed onto the backlog queue; with the
backlog disabled the packet is forwarded directly.  A rejection anywhere is
caught: _reset runs and _handleException sets failed (and would throw in
sync mode; the final Bool records this). -/
def implWritePacket (o : ProtocolOptions) (env : ProtocolEnv) (p : Packet)
    (s : ProtocolState) : ProtocolState × List WireEvent × Bool :=
  if !s.connected && !o.reconnect && o.keepOpen then (s, [], false)
  else if o.backlogEnabled then
    if o.backlogFlushOn ≤ packetLevel p ∧ packetLevel p ≠ Level.control then
      let r := flushQueue o env s
      if r.2.2 then (failState env r.1, r.2.1, true)
      else
        let r2 := forwardPacket o env p (!o.keepOpen) r.1
        if r2.2.2 then (failState env r2.1, r.2.1 ++ r2.2.1, true)
        else (r2.1, r.2.1 ++ r2.2.1, false)
    else
      ({ s with queue := (PacketQueue.push o.backlogQueue s.queue p).1 }, [], false)
  else
    let r := forwardPacket o env p (!o.keepOpen) s
    if r.2.2 then (failState env r.1, r.2.1, true)
    else r

/-- implDisconnect of src/protocol.js: when not connected, just clear the
backlog queue; when connected, run _reset. -/
def implDisconnect (env : ProtocolEnv) (s : ProtocolState) : ProtocolState :=
  if !s.connected then { s with queue := [] }
  else resetState env s

/-- Submitting a list of records one after another through implWritePacket
(sync mode), keeping only the state. -/
def submitAll (o : ProtocolOptions) (env : ProtocolEnv) :
    List Packet → ProtocolState → ProtocolState
  | [], s => s
  | p :: rest, s => submitAll o env rest (implWritePacket o env p s).1

namespace BinaryFormatter

/-- Little-endian byte encoding of an integer in w bytes, after reduction
modulo 2^(8*w): the behaviour of Buffer.writeInt16LE, writeInt32LE and
writeUInt32LE on their value arguments. -/
def leBytes (w : Nat) (v : Int) : List UInt8 :=
  (List.range w).map (fun i => UInt8.ofNat (((v.emod (2 ^ (8 * w))).toNat >>> (8 * i)) % 256))

/-- writeInt16 of src/formatter.js. -/
def writeInt16 (v : Int) : List UInt8 := leBytes 2 v

/-- writeInt32 of src/formatter.js. -/
def writeInt32 (v : Int) : List UInt8 := leBytes 4 v

/-- writeUInt32 of src/formatter.js (the value is already brought into
unsigned range by the JS zero-fill shift before writing). -/
def writeUInt32 (v : Int) : List UInt8 := leBytes 4 v

/-- The bytes of an optional string or buffer field, empty when absent
(encodeString returns null for a null or undefined value, and the compile
functions then write a zero length and no bytes). -/
def optBytes (o : Option (List UInt8)) : List UInt8 :=
  match o with
  | none => []
  | some b => b

/-- dateToTimestamp of src/formatter.js on the millisecond reading of a
Date: milliseconds since the Unix epoch divided by the 86400000 ms of one
day, plus the 25569-day offset between 1899-12-30 and 1970-01-01.  The
source computes with IEEE-754 doubles; the model computes the exact
rational. -/
def dateToTimestamp (ms : Int) : Rat :=
  (ms : Rat) / 86400000 + 25569

/-- colorToInt of src/formatter.js on a parsed color with byte components:
r | g<<8 | b<<16 | a<<24, taken unsigned; 0 when the color is absent. -/
def colorToInt (c : Option Color) : Int :=
  match c with
  | none => 0
  | some c =>
    (c.r.toNat + c.g.toNat * 256 + c.b.toNat * 65536 + c.a.toNat * 16777216 : Nat)

/-- compileLogHeader of src/formatter.js. -/
def compileLogHeader (p : Packet) : List UInt8 :=
  writeInt32 (optLen p.content) ++ optBytes p.content

/-- compileLogEntry of src/formatter.js.  The wd argument is the IEEE-754
little-endian encoding used by writeDouble, kept abstract. -/
def compileLogEntry (wd : Rat → List UInt8) (p : Packet) : List UInt8 :=
  writeInt32 p.logEntryType ++ writeInt32 p.viewerId ++
    writeInt32 (optLen p.appName) ++ writeInt32 (optLen p.sessionName) ++
    writeInt32 (optLen p.title) ++ writeInt32 (optLen p.hostName) ++
    writeInt32 (optLen p.data) ++ writeInt32 p.processId ++
    writeInt32 p.threadId ++ wd (dateToTimestamp p.timestampMs) ++
    writeUInt32 (colorToInt p.color) ++ optBytes p.appName ++
    optBytes p.sessionName ++ optBytes p.title ++ optBytes p.hostName ++
    optBytes p.data

/-- compileWatch of src/formatter.js. -/
def compileWatch (wd : Rat → List UInt8) (p : Packet) : List UInt8 :=
  writeInt32 (optLen p.name) ++ writeInt32 (optLen p.value) ++
    writeInt32 p.watchType ++ wd (dateToTimestamp p.timestampMs) ++
    optBytes p.name ++ optBytes p.value

/-- compileProcessFlow of src/formatter.js. -/
def compileProcessFlow (wd : Rat → List UInt8) (p : Packet) : List UInt8 :=
  writeInt32 p.processFlowType ++ writeInt32 (optLen p.title) ++
    writeInt32 (optLen p.hostName) ++ writeInt32 p.processId ++
    writeInt32 p.threadId ++ wd (dateToTimestamp p.timestampMs) ++
    optBytes p.title ++ optBytes p.hostName

/-- compileControlCommand of src/formatter.js. -/
def compileControlCommand (p : Packet) : List UInt8 :=
  writeInt32 p.controlCommandType ++ writeInt32 (optLen p.data) ++
    optBytes p.data

/-- compileStream of src/formatter.js. -/
def compileStream (wd : Rat → List UInt8) (p : Packet) : List UInt8 :=
  writeInt32 (optLen p.channel) ++ writeInt32 (optLen p.data) ++
    writeInt32 (optLen p.streamType) ++ wd (dateToTimestamp p.timestampMs) ++
    optBytes p.channel ++ optBytes p.data ++ optBytes p.streamType

/-- compile of src/formatter.js: dispatch on the packet type (LogHeader 7,
LogEntry 4, Watch 5, ProcessFlow 6, ControlCommand 1, Stream 8, from
src/enums.js); every other type produces an empty body. -/
def compile (wd : Rat → List UInt8) (p : Packet) : List UInt8 :=
  if p.packetType = 7 then compileLogHeader p
  else if p.packetType = 4 then compileLogEntry wd p
  else if p.packetType = 5 then compileWatch wd p
  else if p.packetType = 6 then compileProcessFlow wd p
  else if p.packetType = 1 then compileControlCommand p
  else if p.packetType = 8 then compileStream wd p
  else []

/-- format of src/formatter.js: a 6-byte frame header (u16 packet type,
u32 body size) followed by the body when the body is non-empty, and an empty
buffer otherwise. -/
def format (wd : Rat → List UInt8) (p : Packet) : List UInt8 :=
  let stream := compile wd p
  if 0 < stream.length then
    writeInt16 p.packetType ++ writeInt32 (stream.length : Int) ++ stream
  else []

/-- _internalWritePacket of src/protocol.js: format the packet and write the
buffer to the socket only when the buffer is non-empty and a socket exists.
The result is the byte sequence actually written. -/
def internalWriteBytes (wd : Rat → List UInt8) (hasSocket : Bool)
    (p : Packet) : List UInt8 :=
  let buffer := format wd p
  if 0 < buffer.length ∧ hasSocket then buffer else []

end BinaryFormatter

namespace SingleFlight

/-!
A small interleaving model for two concurrent invocations of implConnect on
the same protocol instance (sync mode, keep-open configuration, a reachable
peer).  Each invocation is a task with two atomic phases separated by the
await inside implConnect:

* phase one runs the guard: when the instance is already connected the task
  returns at once; otherwise the task starts a fresh socket handshake;
* phase two is the completion of a successful handshake: it sends the Header
  record, sets connected, and the task finishes.

The shared state is the connected flag; the model counts the Header records
the peer receives.
-/

inductive Phase where
  | ready
  | handshaking
  | finished
deriving DecidableEq

/-- The shared instance together with the two tasks. -/
structure Config where
  connected : Bool
  headers : Nat
  task0 : Phase
  task1 : Phase
deriving DecidableEq

/-- Both tasks about to call implConnect on a disconnected instance. -/
def startConfig : Config :=
  { connected := false, headers := 0, task0 := Phase.ready, task1 := Phase.ready }

/-- Run the next atomic phase of one task: the implConnect guard when ready
(a no-op finish when already connected), or the handshake completion which
emits one Header and sets connected. -/
def stepPhase (connected : Bool) (headers : Nat) (ph : Phase) :
    Bool × Nat × Phase :=
  match ph with
  | Phase.ready =>
    if connected then (connected, headers, Phase.finished)
    else (connected, headers, Phase.handshaking)
  | Phase.handshaking => (true, headers + 1, Phase.finished)
  | Phase.finished => (connected, headers, Phase.finished)

/-- Run a schedule: at each step the named task (false = first, true =
second) executes its next atomic phase. -/
def run : List Bool → Config → Config
  | [], c => c
  | t :: rest, c =>
    if t then
      let r := stepPhase c.connected c.headers c.task1
      run rest { connected := r.1, headers := r.2.1, task1 := r.2.2, task0 := c.task0 }
    else
      let r := stepPhase c.connected c.headers c.task0
      run rest { connected := r.1, headers := r.2.1, task0 := r.2.2, task1 := c.task1 }

end SingleFlight

/-! Helper lemmas about the scheduler queue. -/

namespace SchedulerQueue

theorem sumCost_nil : sumCost [] = 0 := rfl

theorem sumCost_cons (c : SchedulerCommand) (l : List SchedulerCommand) :
    sumCost (c :: l) = (c.size : Int) + (OVERHEAD : Int) + sumCost l := by
  unfold sumCost
  push_cast [List.map_cons, List.sum_cons]
  ring

theorem writes_cons_of_write {c : SchedulerCommand} (h : isWrite c = true)
    (l : List SchedulerCommand) : writes (c :: l) = c :: writes l := by
  simp [writes, List.filter_cons, h]

theorem writes_cons_of_nonwrite {c : SchedulerCommand} (h : isWrite c = false)
    (l : List SchedulerCommand) : writes (c :: l) = writes l := by
  simp [writes, List.filter_cons, h]

theorem nonWrites_cons_of_write {c : SchedulerCommand} (h : isWrite c = true)
    (l : List SchedulerCommand) : nonWrites (c :: l) = nonWrites l := by
  simp [nonWrites, List.filter_cons, h]

theorem nonWrites_cons_of_nonwrite {c : SchedulerCommand}
    (h : isWrite c = false) (l : List SchedulerCommand) :
    nonWrites (c :: l) = c :: nonWrites l := by
  simp [nonWrites, List.filter_cons, h]

/-- Behaviour of the trim walk, by induction on the queue: there is a count
k of removed commands, all of them the first k WritePacket commands; the
non-write commands survive in place; the accumulated total is the freed
bytes; the walk stops as soon as the target is reached; and it reports true
exactly when the target was reached. -/
theorem trimLoop_spec (n : Int) :
    ∀ (q : List SchedulerCommand) (freed : Int), freed < n →
    ∃ k, k ≤ (writes q).length ∧
      (trimLoop n q freed).1 = (trimLoop n q freed).1 ∧
      writes (trimLoop n q freed).1 = (writes q).drop k ∧
      nonWrites (trimLoop n q freed).1 = nonWrites q ∧
      (trimLoop n q freed).2.1 = freed + sumCost ((writes q).take k) ∧
      (∀ j, j < k → freed + sumCost ((writes q).take j) < n) ∧
      ((trimLoop n q freed).2.2 = true ↔ n ≤ (trimLoop n q freed).2.1) ∧
      ((trimLoop n q freed).2.2 = false → k = (writes q).length) := by
  intro q
  induction q with
  | nil =>
    intro freed hf
    refine ⟨0, by simp, rfl, ?_, ?_, ?_, ?_, ?_, ?_⟩
    · simp [trimLoop, writes]
    · simp [trimLoop]
    · simp [trimLoop, sumCost_nil]
    · intro j hj
      omega
    · simp [trimLoop]
      omega
    · simp [trimLoop, writes]
  | cons c rest ih =>
    intro freed hf
    by_cases hw : isWrite c = true
    · by_cases h2 : n ≤ freed + (c.size : Int) + (OVERHEAD : Int)
      · refine ⟨1, ?_, rfl, ?_, ?_, ?_, ?_, ?_, ?_⟩
        · rw [writes_cons_of_write hw]
          simp
        · rw [writes_cons_of_write hw]
          simp [trimLoop, hw, h2]
        · rw [nonWrites_cons_of_write hw]
          simp [trimLoop, hw, h2]
        · rw [writes_cons_of_write hw]
          simp [trimLoop, hw, h2, sumCost_cons, sumCost_nil]
          ring
        · intro j hj
          interval_cases j
          simpa [sumCost_nil] using hf
        · simp [trimLoop, hw, h2]
        · simp [trimLoop, hw, h2]
      · have hf2 : freed + (c.size : Int) + (OVERHEAD : Int) < n := by omega
        obtain ⟨k2, hk2le, -, hkw, hknw, hkf, hkstop, hkiff, hkfalse⟩ :=
          ih (freed + (c.size : Int) + (OVERHEAD : Int)) hf2
        have heq : trimLoop n (c :: rest) freed =
            trimLoop n rest (freed + (c.size : Int) + (OVERHEAD : Int)) := by
          simp [trimLoop, hw, h2]
        refine ⟨k2 + 1, ?_, rfl, ?_, ?_, ?_, ?_, ?_, ?_⟩
        · rw [writes_cons_of_write hw]
          simpa using hk2le
        · rw [heq, writes_cons_of_write hw, List.drop_succ_cons, hkw]
        · rw [heq, nonWrites_cons_of_write hw, hknw]
        · rw [heq, writes_cons_of_write hw, List.take_succ_cons,
            sumCost_cons, hkf]
          ring
        · intro j hj
          match j with
          | 0 => simpa [sumCost_nil] using hf
          | j2 + 1 =>
            rw [writes_cons_of_write hw, List.take_succ_cons, sumCost_cons]
            have := hkstop j2 (by omega)
            linarith
        · rw [heq]
          exact hkiff
        · rw [heq, writes_cons_of_write hw]
          intro hfalse
          simp [hkfalse hfalse]
      -- end write case
    · have hw2 : isWrite c = false := by
        cases h : isWrite c
        · rfl
        · exact absurd h hw
      obtain ⟨k2, hk2le, -, hkw, hknw, hkf, hkstop, hkiff, hkfalse⟩ :=
        ih freed hf
      have heq1 : (trimLoop n (c :: rest) freed).1 =
          c :: (trimLoop n rest freed).1 := by
        simp [trimLoop, hw2]
      have heq2 : (trimLoop n (c :: rest) freed).2 =
          (trimLoop n rest freed).2 := by
        simp [trimLoop, hw2]
      refine ⟨k2, ?_, rfl, ?_, ?_, ?_, ?_, ?_, ?_⟩
      · rw [writes_cons_of_nonwrite hw2]
        exact hk2le
      · rw [heq1, writes_cons_of_nonwrite hw2, writes_cons_of_nonwrite hw2,
          hkw]
      · rw [heq1, nonWrites_cons_of_nonwrite hw2,
          nonWrites_cons_of_nonwrite hw2, hknw]
      · rw [heq2, writes_cons_of_nonwrite hw2, hkf]
      · intro j hj
        rw [writes_cons_of_nonwrite hw2]
        exact hkstop j hj
      · rw [heq2]
        exact hkiff
      · rw [heq2, writes_cons_of_nonwrite hw2]
        exact hkfalse

end SchedulerQueue

/-- Claim C4: for every SchedulerQueue and every n > 0, trim(n) walks from
head toward tail removing only WritePacket commands, oldest first, stopping
as soon as the freed bytes (each command size plus the 24-byte item
overhead) reach n; Connect, Disconnect and Dispatch commands are never
removed and keep their relative positions; trim returns true exactly when at
least n bytes were freed. -/
theorem c4_trim_spec (q : List SchedulerCommand) (n : Int) (hn : 0 < n) :
    ∃ k, k ≤ (SchedulerQueue.writes q).length ∧
      SchedulerQueue.writes (SchedulerQueue.trim n q).1 =
        (SchedulerQueue.writes q).drop k ∧
      SchedulerQueue.nonWrites (SchedulerQueue.trim n q).1 =
        SchedulerQueue.nonWrites q ∧
      (∀ j, j < k →
        SchedulerQueue.sumCost ((SchedulerQueue.writes q).take j) < n) ∧
      ((SchedulerQueue.trim n q).2 = true ↔
        n ≤ SchedulerQueue.sumCost ((SchedulerQueue.writes q).take k)) ∧
      ((SchedulerQueue.trim n q).2 = false →
        k = (SchedulerQueue.writes q).length) := by
  obtain ⟨k, hkle, -, hkw, hknw, hkf, hkstop, hkiff, hkfalse⟩ :=
    SchedulerQueue.trimLoop_spec n q 0 hn
  have heq : SchedulerQueue.trim n q =
      ((SchedulerQueue.trimLoop n q 0).1, (SchedulerQueue.trimLoop n q 0).2.2) := by
    simp [SchedulerQueue.trim, not_le.mpr hn]
  refine ⟨k, hkle, ?_, ?_, ?_, ?_, ?_⟩
  · rw [heq]
    exact hkw
  · rw [heq]
    exact hknw
  · intro j hj
    have := hkstop j hj
    linarith
  · rw [heq]
    simpa [hkf] using hkiff
  · rw [heq]
    exact hkfalse

/-- Witness for C4 at a concrete queue [Connect, Write, Disconnect] and
n = 5. -/
theorem c4_trim_spec_witness :
    ∃ k, k ≤ (SchedulerQueue.writes
        [SchedulerCommand.mk SchedulerAction.connectA none,
         SchedulerCommand.mk SchedulerAction.writePacketA (some emptyPacket),
         SchedulerCommand.mk SchedulerAction.disconnectA none]).length ∧
      SchedulerQueue.writes (SchedulerQueue.trim 5
        [SchedulerCommand.mk SchedulerAction.connectA none,
         SchedulerCommand.mk SchedulerAction.writePacketA (some emptyPacket),
         SchedulerCommand.mk SchedulerAction.disconnectA none]).1 =
        ((SchedulerQueue.writes
        [SchedulerCommand.mk SchedulerAction.connectA none,
         SchedulerCommand.mk SchedulerAction.writePacketA (some emptyPacket),
         SchedulerCommand.mk SchedulerAction.disconnectA none]).drop k) ∧
      SchedulerQueue.nonWrites (SchedulerQueue.trim 5
        [SchedulerCommand.mk SchedulerAction.connectA none,
         SchedulerCommand.mk SchedulerAction.writePacketA (some emptyPacket),
         SchedulerCommand.mk SchedulerAction.disconnectA none]).1 =
        SchedulerQueue.nonWrites
        [SchedulerCommand.mk SchedulerAction.connectA none,
         SchedulerCommand.mk SchedulerAction.writePacketA (some emptyPacket),
         SchedulerCommand.mk SchedulerAction.disconnectA none] ∧
      (∀ j, j < k →
        SchedulerQueue.sumCost ((SchedulerQueue.writes
        [SchedulerCommand.mk SchedulerAction.connectA none,
         SchedulerCommand.mk SchedulerAction.writePacketA (some emptyPacket),
         SchedulerCommand.mk SchedulerAction.disconnectA none]).take j) < 5) ∧
      ((SchedulerQueue.trim 5
        [SchedulerCommand.mk SchedulerAction.connectA none,
         SchedulerCommand.mk SchedulerAction.writePacketA (some emptyPacket),
         SchedulerCommand.mk SchedulerAction.disconnectA none]).2 = true ↔
        5 ≤ SchedulerQueue.sumCost ((SchedulerQueue.writes
        [SchedulerCommand.mk SchedulerAction.connectA none,
         SchedulerCommand.mk SchedulerAction.writePacketA (some emptyPacket),
         SchedulerCommand.mk SchedulerAction.disconnectA none]).take k)) ∧
      ((SchedulerQueue.trim 5
        [SchedulerCommand.mk SchedulerAction.connectA none,
         SchedulerCommand.mk SchedulerAction.writePacketA (some emptyPacket),
         SchedulerCommand.mk SchedulerAction.disconnectA none]).2 = false →
        k = (SchedulerQueue.writes
        [SchedulerCommand.mk SchedulerAction.connectA none,
         SchedulerCommand.mk SchedulerAction.writePacketA (some emptyPacket),
         SchedulerCommand.mk SchedulerAction.disconnectA none]).length) :=
  c4_trim_spec
    [SchedulerCommand.mk SchedulerAction.connectA none,
     SchedulerCommand.mk SchedulerAction.writePacketA (some emptyPacket),
     SchedulerCommand.mk SchedulerAction.disconnectA none] 5 (by decide)

/-! Helper lemmas about the packet queue. -/

namespace PacketQueue

theorem queueSize_nil : queueSize [] = 0 := rfl

theorem queueSize_cons (p : Packet) (l : List Packet) :
    queueSize (p :: l) = getPacketSize p + OVERHEAD + queueSize l := by
  unfold queueSize
  rw [List.map_cons, List.sum_cons]

theorem queueSize_append (a b : List Packet) :
    queueSize (a ++ b) = queueSize a + queueSize b := by
  unfold queueSize
  rw [List.map_append, List.sum_append]

/-- Behaviour of the _resize loop: the tracked size ends at or below the
capacity, the remaining queue is the original with its oldest entries
dropped, and every packet it dropped was dropped while the size was still
above the capacity. -/
theorem resize_spec (backlog : Nat) (q : List Packet) :
    queueSize (resize backlog q).1 ≤ backlog ∧
    (resize backlog q).1 = q.drop (resize backlog q).2 ∧
    (∀ j, j < (resize backlog q).2 → backlog < queueSize (q.drop j)) := by
  induction q with
  | nil =>
    refine ⟨?_, rfl, ?_⟩
    · simp [resize, queueSize_nil]
    · intro j hj
      simp [resize] at hj
  | cons p rest ih =>
    by_cases h : backlog < queueSize (p :: rest)
    · obtain ⟨ih1, ih2, ih3⟩ := ih
      have heq : resize backlog (p :: rest) =
          ((resize backlog rest).1, (resize backlog rest).2 + 1) := by
        simp [resize, h]
      refine ⟨?_, ?_, ?_⟩
      · rw [heq]
        exact ih1
      · rw [heq, List.drop_succ_cons]
        exact ih2
      · intro j hj
        rw [heq] at hj
        match j with
        | 0 => simpa using h
        | j2 + 1 =>
          rw [List.drop_succ_cons]
          exact ih3 j2 (by omega)
    · have heq : resize backlog (p :: rest) = (p :: rest, 0) := by
        simp [resize, h]
      refine ⟨?_, ?_, ?_⟩
      · rw [heq]
        exact not_lt.mp h
      · rw [heq]
        rfl
      · intro j hj
        rw [heq] at hj
        omega

/-- A push whose result fits the capacity evicts nothing. -/
theorem push_no_evict (backlog : Nat) (q : List Packet) (p : Packet)
    (h : queueSize (q ++ [p]) ≤ backlog) :
    push backlog q p = (q ++ [p], 0) := by
  unfold push
  cases hq : q ++ [p] with
  | nil => simp [resize]
  | cons a l =>
    rw [hq] at h
    simp [resize, not_lt.mpr h]

end PacketQueue

/-- Claim C5: after every PacketQueue push the invariant size ≤ capacity is
re-established by popping from the head, oldest first, while the capacity is
below the size — so evictions always remove the oldest records — and when a
push evicts d > 0 packets the onPacketDropped hook is invoked exactly once
for that push, with exactly d. -/
theorem c5_push_spec (backlog : Nat) (q : List Packet) (p : Packet) :
    PacketQueue.queueSize (PacketQueue.push backlog q p).1 ≤ backlog ∧
    (PacketQueue.push backlog q p).1 =
      (q ++ [p]).drop (PacketQueue.push backlog q p).2 ∧
    (∀ j, j < (PacketQueue.push backlog q p).2 →
      backlog < PacketQueue.queueSize ((q ++ [p]).drop j)) ∧
    PacketQueue.hookCalls (PacketQueue.push backlog q p).2 =
      (if 0 < (PacketQueue.push backlog q p).2 then
        [(PacketQueue.push backlog q p).2] else []) := by
  obtain ⟨h1, h2, h3⟩ := PacketQueue.resize_spec backlog (q ++ [p])
  exact ⟨h1, h2, h3, rfl⟩

namespace Scheduler

/-- The drain loop executes exactly the Disconnect commands, in order. -/
theorem drainExecutions_eq_filter (q : List SchedulerCommand) :
    drainExecutions q =
      q.filter (fun c => c.action = SchedulerAction.disconnectA) := by
  induction q with
  | nil => rfl
  | cons c rest ih =>
    by_cases hc : c.action = SchedulerAction.disconnectA <;>
      simp [drainExecutions, hc, ih, List.filter_cons]

end Scheduler

/-- Claim C6: after stop() on a started scheduler, the remaining queue is
drained executing only the Disconnect commands — implDisconnect is invoked
for each remaining Disconnect, in queue order — while remaining WritePacket
and Connect commands are dequeued and discarded unexecuted, all throttle
waiters are released, and the queue is empty when stop completes. -/
theorem c6_stop_spec (s : Scheduler.State) (h : s.started = true) :
    (Scheduler.stop s).1.queue = [] ∧
    (Scheduler.stop s).1.waiters = 0 ∧
    (Scheduler.stop s).1.started = false ∧
    (Scheduler.stop s).1.stopped = true ∧
    (Scheduler.stop s).2 =
      s.queue.filter (fun c => c.action = SchedulerAction.disconnectA) ∧
    (∀ c, c ∈ (Scheduler.stop s).2 →
      c.action = SchedulerAction.disconnectA) := by
  have heq : Scheduler.stop s =
      ({ started := false, stopped := true, queue := [], waiters := 0 },
        Scheduler.drainExecutions s.queue) := by
    simp [Scheduler.stop, h]
  rw [heq]
  refine ⟨rfl, rfl, rfl, rfl, Scheduler.drainExecutions_eq_filter s.queue, ?_⟩
  intro c hc
  rw [Scheduler.drainExecutions_eq_filter] at hc
  have := List.of_mem_filter hc
  simpa using this

/-- Witness for C6 at a started scheduler holding a Write, a Disconnect, a
Connect and another Disconnect, with two throttle waiters pending. -/
theorem c6_stop_spec_witness :
    (Scheduler.stop
      { started := true, stopped := false,
        queue :=
          [SchedulerCommand.mk SchedulerAction.writePacketA (some emptyPacket),
           SchedulerCommand.mk SchedulerAction.disconnectA none,
           SchedulerCommand.mk SchedulerAction.connectA none,
           SchedulerCommand.mk SchedulerAction.disconnectA none],
        waiters := 2 }).1.queue = [] ∧
    (Scheduler.stop
      { started := true, stopped := false,
        queue :=
          [SchedulerCommand.mk SchedulerAction.writePacketA (some emptyPacket),
           SchedulerCommand.mk SchedulerAction.disconnectA none,
           SchedulerCommand.mk SchedulerAction.connectA none,
           SchedulerCommand.mk SchedulerAction.disconnectA none],
        waiters := 2 }).1.waiters = 0 ∧
    (Scheduler.stop
      { started := true, stopped := false,
        queue :=
          [SchedulerCommand.mk SchedulerAction.writePacketA (some emptyPacket),
           SchedulerCommand.mk SchedulerAction.disconnectA none,
           SchedulerCommand.mk SchedulerAction.connectA none,
           SchedulerCommand.mk SchedulerAction.disconnectA none],
        waiters := 2 }).1.started = false ∧
    (Scheduler.stop
      { started := true, stopped := false,
        queue :=
          [SchedulerCommand.mk SchedulerAction.writePacketA (some emptyPacket),
           SchedulerCommand.mk SchedulerAction.disconnectA none,
           SchedulerCommand.mk SchedulerAction.connectA none,
           SchedulerCommand.mk SchedulerAction.disconnectA none],
        waiters := 2 }).1.stopped = true ∧
    (Scheduler.stop
      { started := true, stopped := false,
        queue :=
          [SchedulerCommand.mk SchedulerAction.writePacketA (some emptyPacket),
           SchedulerCommand.mk SchedulerAction.disconnectA none,
           SchedulerCommand.mk SchedulerAction.connectA none,
           SchedulerCommand.mk SchedulerAction.disconnectA none],
        waiters := 2 }).2 =
      ([SchedulerCommand.mk SchedulerAction.writePacketA (some emptyPacket),
        SchedulerCommand.mk SchedulerAction.disconnectA none,
        SchedulerCommand.mk SchedulerAction.connectA none,
        SchedulerCommand.mk SchedulerAction.disconnectA none]).filter
        (fun c => c.action = SchedulerAction.disconnectA) ∧
    (∀ c, c ∈ (Scheduler.stop
      { started := true, stopped := false,
        queue :=
          [SchedulerCommand.mk SchedulerAction.writePacketA (some emptyPacket),
           SchedulerCommand.mk SchedulerAction.disconnectA none,
           SchedulerCommand.mk SchedulerAction.connectA none,
           SchedulerCommand.mk SchedulerAction.disconnectA none],
        waiters := 2 }).2 →
      c.action = SchedulerAction.disconnectA) :=
  c6_stop_spec
    { started := true, stopped := false,
      queue :=
        [SchedulerCommand.mk SchedulerAction.writePacketA (some emptyPacket),
         SchedulerCommand.mk SchedulerAction.disconnectA none,
         SchedulerCommand.mk SchedulerAction.connectA none,
         SchedulerCommand.mk SchedulerAction.disconnectA none],
      waiters := 2 } rfl

/-- A reconnect attempt inside the time gate returns without touching the
state or opening a socket. -/
theorem reconnectAttempt_noop (o : ProtocolOptions) (env : ProtocolEnv)
    (s : ProtocolState)
    (hg : 0 < o.reconnectInterval ∧
      env.now - s.reconnectTickCount < o.reconnectInterval) :
    reconnectAttempt o env s = (s, [], false) := by
  unfold reconnectAttempt
  rw [if_pos (by exact_mod_cast hg)]

/-- Claim C7: a reconnect attempt inside the time gate (less than
reconnect_interval milliseconds after the previous attempt, with a positive
interval) is a complete no-op — no socket is opened and the state is
unchanged; an actual attempt always stamps the gate with the current time;
a failed actual attempt sets the failed flag and resets the state to
Disconnected (and, the model being a total function, never throws); and a
second attempt less than reconnect_interval after an actual attempt is
therefore a no-op. -/
theorem c7_reconnect_gate (o : ProtocolOptions) (env : ProtocolEnv)
    (s : ProtocolState) :
    ((0 < o.reconnectInterval ∧
        env.now - s.reconnectTickCount < o.reconnectInterval) →
      reconnectAttempt o env s = (s, [], false)) ∧
    (¬(0 < o.reconnectInterval ∧
        env.now - s.reconnectTickCount < o.reconnectInterval) →
      (reconnectAttempt o env s).1.reconnectTickCount = env.finish ∧
      (reconnectAttempt o env s).2.2 = true) ∧
    (¬(0 < o.reconnectInterval ∧
        env.now - s.reconnectTickCount < o.reconnectInterval) →
      s.connected = false → env.connectOk = false →
      (reconnectAttempt o env s).1.failed = true ∧
      (reconnectAttempt o env s).1.connected = false) ∧
    (∀ env2 : ProtocolEnv,
      ¬(0 < o.reconnectInterval ∧
        env.now - s.reconnectTickCount < o.reconnectInterval) →
      0 < o.reconnectInterval →
      env2.now - env.finish < o.reconnectInterval →
      reconnectAttempt o env2 (reconnectAttempt o env s).1 =
        ((reconnectAttempt o env s).1, [], false)) := by
  have hgate : ∀ henv : ¬(0 < o.reconnectInterval ∧
      env.now - s.reconnectTickCount < o.reconnectInterval),
      (reconnectAttempt o env s).1.reconnectTickCount = env.finish ∧
      (reconnectAttempt o env s).2.2 = true := by
    intro henv
    unfold reconnectAttempt
    rw [if_neg (by exact_mod_cast henv)]
    dsimp only
    unfold internalConnect
    by_cases hc : s.connected
    · simp [hc]
    · by_cases hk : env.connectOk
      · simp [hc, hk]
      · simp [hc, hk, resetState]
  refine ⟨?_, hgate, ?_, ?_⟩
  · intro hg
    exact reconnectAttempt_noop o env s hg
  · intro henv hc hk
    unfold reconnectAttempt
    rw [if_neg (by exact_mod_cast henv)]
    dsimp only
    unfold internalConnect
    simp [hc, hk, resetState]
  · intro env2 henv hpos h2
    have htick := (hgate henv).1
    exact reconnectAttempt_noop o env2 (reconnectAttempt o env s).1
      ⟨hpos, by rw [htick]; exact h2⟩

/-- Witness for C7 at a concrete option set, state and pair of attempt
times: an attempt at t = 5000 against an unreachable peer, followed by an
attempt at t = 6000 with a 3000 ms interval. -/
theorem c7_reconnect_gate_witness :
    (¬(0 < defaultOptions.reconnectInterval ∧
        (5000 : Int) - initialState.reconnectTickCount <
          defaultOptions.reconnectInterval) →
      (reconnectAttempt defaultOptions (ProtocolEnv.mk 5000 5001 false)
        initialState).1.reconnectTickCount = 5001 ∧
      (reconnectAttempt defaultOptions (ProtocolEnv.mk 5000 5001 false)
        initialState).2.2 = true) ∧
    reconnectAttempt defaultOptions (ProtocolEnv.mk 6000 6001 false)
      (reconnectAttempt defaultOptions (ProtocolEnv.mk 5000 5001 false)
        initialState).1 =
      ((reconnectAttempt defaultOptions (ProtocolEnv.mk 5000 5001 false)
        initialState).1, [], false) ∧
    (reconnectAttempt defaultOptions (ProtocolEnv.mk 5000 5001 false)
      initialState).1.failed = true ∧
    (reconnectAttempt defaultOptions (ProtocolEnv.mk 5000 5001 false)
      initialState).1.connected = false := by
  have h := c7_reconnect_gate defaultOptions (ProtocolEnv.mk 5000 5001 false)
    initialState
  refine ⟨h.2.1, ?_, ?_⟩
  · exact h.2.2.2 (ProtocolEnv.mk 6000 6001 false) (by decide) (by decide)
      (by decide)
  · exact h.2.2.1 (by decide) rfl rfl

/-! Concrete inputs used by counterexamples and witnesses. -/

/-- A LogEntry packet carrying level Error (at the default backlog.flushOn
threshold). -/
def errorPacket : Packet :=
  { emptyPacket with packetType := 4, level := some Level.errorL }

/-- A LogEntry packet with no level field (so it defaults to Message). -/
def bufferedPacket : Packet :=
  { emptyPacket with packetType := 4 }

/-- An environment in which the peer is unreachable, observed at t = 5000. -/
def offlineEnv : ProtocolEnv :=
  { now := 5000, finish := 5001, connectOk := false }

/-- An environment in which the peer accepts and completes the handshake,
observed at t = 5000. -/
def onlineEnv : ProtocolEnv :=
  { now := 5000, finish := 5001, connectOk := true }

/-- A disconnected protocol instance holding one buffered packet. -/
def backloggedState : ProtocolState :=
  { connected := false, failed := false, queue := [bufferedPacket],
    reconnectTickCount := 0 }

/-- Default options except that backlog.keepOpen is false, so the derived
keep-open flag is off. -/
def noKeepOpenOptions : ProtocolOptions :=
  { defaultOptions with backlogKeepOpen := false }

/-! Claim C1. -/

/-- With reconnect enabled and the backlog enabled, a packet whose effective
level is below the flush threshold (or is Control) takes the queued branch
of implWritePacket: the state change is exactly a push onto the backlog
queue, nothing reaches the wire, and no exception is raised. -/
theorem implWritePacket_queued (o : ProtocolOptions) (env : ProtocolEnv)
    (p : Packet) (s : ProtocolState)
    (hb : o.backlogEnabled = true) (hr : o.reconnect = true)
    (hl : packetLevel p < o.backlogFlushOn ∨ packetLevel p = Level.control) :
    implWritePacket o env p s =
      ({ s with queue := (PacketQueue.push o.backlogQueue s.queue p).1 },
        [], false) := by
  have hflush : ¬(o.backlogFlushOn ≤ packetLevel p ∧
      packetLevel p ≠ Level.control) := by
    rcases hl with h | h
    · intro hcon
      exact absurd hcon.1 (not_le.mpr h)
    · intro hcon
      exact hcon.2 h
  unfold implWritePacket
  simp [hr, hb, hflush]

/-- Submitting a list of qualifying records appends them all, by induction
over the list. -/
theorem submitAll_queued (o : ProtocolOptions) (env : ProtocolEnv)
    (hb : o.backlogEnabled = true) (hr : o.reconnect = true) :
    ∀ (ps : List Packet) (s : ProtocolState),
      (∀ p, p ∈ ps →
        packetLevel p < o.backlogFlushOn ∨ packetLevel p = Level.control) →
      PacketQueue.queueSize (s.queue ++ ps) ≤ o.backlogQueue →
      (submitAll o env ps s).queue = s.queue ++ ps := by
  intro ps
  induction ps with
  | nil =>
    intro s _ _
    simp [submitAll]
  | cons p rest ih =>
    intro s hl hcap
    have hp := hl p (by simp)
    have hstep := implWritePacket_queued o env p s hb hr hp
    have hsize1 : PacketQueue.queueSize (s.queue ++ [p]) ≤ o.backlogQueue := by
      rw [PacketQueue.queueSize_append] at hcap ⊢
      rw [PacketQueue.queueSize_cons] at hcap
      rw [PacketQueue.queueSize_cons, PacketQueue.queueSize_nil]
      omega
    have hpush := PacketQueue.push_no_evict o.backlogQueue s.queue p hsize1
    have hq1 : (implWritePacket o env p s).1.queue = s.queue ++ [p] := by
      rw [hstep, hpush]
    have hstate : submitAll o env (p :: rest) s =
        submitAll o env rest (implWritePacket o env p s).1 := rfl
    have hcap1 : PacketQueue.queueSize
        ((implWritePacket o env p s).1.queue ++ rest) ≤ o.backlogQueue := by
      rw [hq1, List.append_assoc]
      simpa using hcap
    have hrest := ih (implWritePacket o env p s).1
      (fun q hq => hl q (List.mem_cons_of_mem p hq)) hcap1
    rw [hstate, hrest, hq1, List.append_assoc]
    rfl

/-- Claim C1, as amended: in sync mode with backlog.enabled = true and
reconnect = true, every record whose effective level (default Message) is
below backlog.flushOn — or equals Control — is appended to the BacklogQueue
synchronously by implWritePacket, so after submitting K such records whose
cumulative cost fits the backlog capacity, the backlog holds exactly the
prior contents followed by those K records, and its count has grown by
exactly K, with no tick required.  (Records at or above the flush level are
not appended; see the counterexample.) -/
theorem c1_backlog_count (o : ProtocolOptions) (env : ProtocolEnv)
    (ps : List Packet) (s : ProtocolState)
    (hb : o.backlogEnabled = true) (hr : o.reconnect = true)
    (hl : ∀ p, p ∈ ps →
      packetLevel p < o.backlogFlushOn ∨ packetLevel p = Level.control)
    (hcap : PacketQueue.queueSize (s.queue ++ ps) ≤ o.backlogQueue) :
    (submitAll o env ps s).queue = s.queue ++ ps ∧
    (submitAll o env ps s).queue.length = s.queue.length + ps.length := by
  have h := submitAll_queued o env hb hr ps s hl hcap
  refine ⟨h, ?_⟩
  rw [h, List.length_append]

/-- Witness for the amended C1: two Message-level records submitted while
disconnected under the default options land in the backlog, whose count is
then exactly 2. -/
theorem c1_backlog_count_witness :
    (submitAll defaultOptions offlineEnv [bufferedPacket, bufferedPacket]
      initialState).queue = [bufferedPacket, bufferedPacket] ∧
    (submitAll defaultOptions offlineEnv [bufferedPacket, bufferedPacket]
      initialState).queue.length = 2 := by
  have h := c1_backlog_count defaultOptions offlineEnv
    [bufferedPacket, bufferedPacket] initialState rfl rfl
    (by intro q hq; left; simp at hq; rw [hq]; decide)
    (by decide)
  simpa using h

/-- Counterexample to C1 as stated: under the default options (backlog
enabled, reconnect enabled, flushOn = Error) and while disconnected, one
submitted record of level Error is not appended to the backlog — the backlog
count after submitting K = 1 record is 0, not 1. -/
theorem c1_counterexample :
    (implWritePacket defaultOptions offlineEnv errorPacket
      initialState).1.queue.length = 0 ∧
    ¬((implWritePacket defaultOptions offlineEnv errorPacket
      initialState).1.queue.length = 1) := by
  decide

/-! Claim C2. -/

/-- Evidence for C2 being violated by the code: a disconnected instance with
one buffered packet completes a successful connect (both through implConnect
and through the time-gated _reconnect); the state becomes Connected and the
Header record is emitted, but the backlog queue still holds the buffered
packet and nothing else reaches the wire — the queue is not drained on the
Connecting-to-Connected edge. -/
theorem c2_connect_leaves_backlog :
    (implConnect defaultOptions onlineEnv backloggedState).1.connected = true ∧
    (implConnect defaultOptions onlineEnv backloggedState).2.1 =
      [WireEvent.logHeader] ∧
    (implConnect defaultOptions onlineEnv backloggedState).1.queue =
      [bufferedPacket] ∧
    (reconnectAttempt defaultOptions onlineEnv backloggedState).1.connected =
      true ∧
    (reconnectAttempt defaultOptions onlineEnv backloggedState).2.1 =
      [WireEvent.logHeader] ∧
    (reconnectAttempt defaultOptions onlineEnv backloggedState).1.queue =
      [bufferedPacket] := by
  decide

/-- Forwarding a packet on a connected instance writes exactly that packet
and leaves the state unchanged. -/
theorem forwardPacket_connected (o : ProtocolOptions) (env : ProtocolEnv)
    (p : Packet) (s : ProtocolState) (hc : s.connected = true) :
    forwardPacket o env p false s = (s, [WireEvent.packet p], false) := by
  unfold forwardPacket forwardConnectStep forwardWriteStep
  simp [hc]

/-- Where the drain actually happens in the code: _flushQueue on a connected
instance pops the backlog in FIFO order and writes each popped packet to the
wire, leaving the backlog empty.  This drain runs only from the high-level
branch of implWritePacket, not on the Connecting-to-Connected edge. -/
theorem flushQueue_connected_drains (o : ProtocolOptions) (env : ProtocolEnv) :
    ∀ (q : List Packet) (s : ProtocolState),
      s.connected = true → s.queue = q →
      flushQueue o env s =
        ({ s with queue := [] }, q.map WireEvent.packet, false) := by
  have haux : ∀ (q : List Packet) (s : ProtocolState),
      s.connected = true → s.queue = q →
      flushQueueAux o env q.length s =
        ({ s with queue := [] }, q.map WireEvent.packet, false) := by
    intro q
    induction q with
    | nil =>
      intro s hc hq
      cases s
      simp at hq
      simp [flushQueueAux, hq]
    | cons p rest ih =>
      intro s hc hq
      have hfwd := forwardPacket_connected o env p { s with queue := rest }
        (by simpa using hc)
      have hrec := ih { s with queue := rest } (by simpa using hc) rfl
      rw [List.length_cons]
      unfold flushQueueAux
      rw [hq]
      dsimp only
      rw [hfwd]
      dsimp only
      rw [hrec]
      simp
  intro q s hc hq
  have hlen : s.queue.length = q.length := by rw [hq]
  unfold flushQueue
  rw [hlen]
  exact haux q s hc hq

/-! Claim C3. -/

/-- Counterexample to C3 as stated: when two code paths invoke implConnect
concurrently on the same disconnected instance and both pass the connected
guard before either handshake completes, each completes its own handshake
and the peer receives two Header records, not one. -/
theorem c3_counterexample :
    (SingleFlight.run [false, true, false, true]
      SingleFlight.startConfig).headers = 2 ∧
    ¬((SingleFlight.run [false, true, false, true]
      SingleFlight.startConfig).headers = 1) := by
  decide

/-- Claim C3, as amended: the connected guard of implConnect makes a connect
that starts after a previous connect has completed a no-op, so strictly
sequential calls yield exactly one Header; but two interleaved implConnect
calls that both pass the guard before either handshake completes each
perform a handshake, and the peer receives two Header records. -/
theorem c3_amended :
    (SingleFlight.run [false, false, true]
      SingleFlight.startConfig).headers = 1 ∧
    (SingleFlight.run [false, false, true]
      SingleFlight.startConfig).task0 = SingleFlight.Phase.finished ∧
    (SingleFlight.run [false, false, true]
      SingleFlight.startConfig).task1 = SingleFlight.Phase.finished ∧
    (SingleFlight.run [false, true, false, true]
      SingleFlight.startConfig).headers = 2 := by
  decide

/-! Claim C9. -/

/-- Whenever the catch block of implWritePacket runs (the operation would
rethrow in sync mode), _reset has cleared the backlog queue. -/
theorem implWritePacket_raised_clears (o : ProtocolOptions)
    (env : ProtocolEnv) (p : Packet) (s : ProtocolState) :
    (implWritePacket o env p s).2.2 = true →
    (implWritePacket o env p s).1.queue = [] := by
  unfold implWritePacket
  repeat' split
  all_goals intro h
  all_goals try simp_all
  all_goals repeat' split at h
  all_goals simp_all [failState, resetState]

/-- Claim C9: every call to _reset clears the backlog queue, and so do the
paths that reach it — a connect failure in implConnect, a write failure
raised inside implWritePacket, a failed actual reconnect attempt, and
implDisconnect while not connected (which clears the queue directly) — so
records buffered while disconnected are discarded rather than retained for
the next successful connection. -/
theorem c9_reset_clears (o : ProtocolOptions) (env : ProtocolEnv)
    (s : ProtocolState) :
    (resetState env s).queue = [] ∧
    (s.connected = false → o.keepOpen = true → env.connectOk = false →
      (implConnect o env s).1.queue = []) ∧
    (∀ p, (implWritePacket o env p s).2.2 = true →
      (implWritePacket o env p s).1.queue = []) ∧
    (¬(0 < o.reconnectInterval ∧
        env.now - s.reconnectTickCount < o.reconnectInterval) →
      s.connected = false → env.connectOk = false →
      (reconnectAttempt o env s).1.queue = []) ∧
    (s.connected = false → (implDisconnect env s).queue = []) := by
  refine ⟨rfl, ?_, ?_, ?_, ?_⟩
  · intro hc hk hok
    unfold implConnect
    rw [if_neg (by simp [hc, hk])]
    dsimp only
    unfold internalConnect
    simp [hc, hok, failState, resetState]
  · intro p
    exact implWritePacket_raised_clears o env p s
  · intro hg hc hok
    unfold reconnectAttempt
    rw [if_neg (by exact_mod_cast hg)]
    dsimp only
    unfold internalConnect
    simp [hc, hok, resetState]
  · intro hc
    unfold implDisconnect
    rw [if_pos (by simp [hc])]

/-- Witness for C9 at concrete inputs: the failed-connect, failed-reconnect
and disconnected-disconnect paths under the default options against an
unreachable peer, and the raised-write path under the no-keep-open options
(where a write failure propagates to the catch block). -/
theorem c9_reset_clears_witness :
    (resetState offlineEnv initialState).queue = [] ∧
    (implConnect defaultOptions offlineEnv initialState).1.queue = [] ∧
    (reconnectAttempt defaultOptions offlineEnv initialState).1.queue = [] ∧
    (implDisconnect offlineEnv initialState).queue = [] ∧
    (implWritePacket noKeepOpenOptions offlineEnv errorPacket
      initialState).1.queue = [] := by
  have h1 := c9_reset_clears defaultOptions offlineEnv initialState
  have h2 := c9_reset_clears noKeepOpenOptions offlineEnv initialState
  exact ⟨h1.1, h1.2.1 rfl rfl rfl, h1.2.2.2.1 (by decide) rfl rfl,
    h1.2.2.2.2 rfl, h2.2.2.1 errorPacket (by decide)⟩

/-! Claim C8. -/

/-- A rational is exactly representable as an IEEE-754 binary64 value when
it is an integer multiple m * 2^e with |m| within the 53-bit significand and
e within the exponent range.  IEEE round-to-nearest returns an exactly
representable real unchanged, so an arithmetic operation whose exact result
is representable is computed exactly. -/
def Binary64Exact (x : Rat) : Prop :=
  ∃ m : Int, ∃ e : Int,
    |m| ≤ 2 ^ 53 - 1 ∧ -1074 ≤ e ∧ e ≤ 971 ∧ x = (m : Rat) * 2 ^ e

/-- Claim C8: dateToTimestamp computes ms / 86,400,000 + 25,569; on the
input ms = 1,704,067,200,000 (2024-01-01T00:00:00Z) the exact value is the
integer 45292, and the input, the intermediate quotient 19723 and the result
45292 are each exactly representable in binary64 — so the IEEE-754 double
evaluation performed by the source returns exactly 45292.0, within 1 ULP of
itself. -/
theorem c8_timestamp_exact :
    BinaryFormatter.dateToTimestamp 1704067200000 = 45292 ∧
    ((1704067200000 : Rat) / 86400000 = 19723) ∧
    Binary64Exact (1704067200000 : Rat) ∧
    Binary64Exact ((1704067200000 : Rat) / 86400000) ∧
    Binary64Exact (BinaryFormatter.dateToTimestamp 1704067200000) := by
  have hq : (1704067200000 : Rat) / 86400000 = 19723 := by norm_num
  have hts : BinaryFormatter.dateToTimestamp 1704067200000 = 45292 := by
    unfold BinaryFormatter.dateToTimestamp
    rw [show ((1704067200000 : Int) : Rat) = (1704067200000 : Rat) by norm_num,
      hq]
    norm_num
  refine ⟨hts, hq, ⟨1704067200000, 0, by norm_num, by norm_num, by norm_num,
    by norm_num⟩, ?_, ?_⟩
  · rw [hq]
    exact ⟨19723, 0, by norm_num, by norm_num, by norm_num, by norm_num⟩
  · rw [hts]
    exact ⟨45292, 0, by norm_num, by norm_num, by norm_num, by norm_num⟩

/-! Claim C10. -/

/-- Claim C10: for every packet whose packetType is none of the six known
kinds (ControlCommand 1, LogEntry 4, Watch 5, ProcessFlow 6, LogHeader 7,
Stream 8), BinaryFormatter.compile produces an empty body, format returns an
empty buffer (it is a total function, so nothing is thrown), and
_internalWritePacket consequently writes nothing to the socket: the packet
is silently dropped. -/
theorem c10_unknown_type_dropped (wd : Rat → List UInt8) (p : Packet)
    (h1 : ¬p.packetType = 1) (h4 : ¬p.packetType = 4)
    (h5 : ¬p.packetType = 5) (h6 : ¬p.packetType = 6)
    (h7 : ¬p.packetType = 7) (h8 : ¬p.packetType = 8) :
    BinaryFormatter.compile wd p = [] ∧
    BinaryFormatter.format wd p = [] ∧
    (∀ hasSocket : Bool,
      BinaryFormatter.internalWriteBytes wd hasSocket p = []) := by
  have hc : BinaryFormatter.compile wd p = [] := by
    unfold BinaryFormatter.compile
    simp [h1, h4, h5, h6, h7, h8]
  have hf : BinaryFormatter.format wd p = [] := by
    unfold BinaryFormatter.format
    simp [hc]
  refine ⟨hc, hf, ?_⟩
  intro hs
  unfold BinaryFormatter.internalWriteBytes
  simp [hf]

/-- Witness for C10 at packetType 99 and a concrete double encoder. -/
theorem c10_unknown_type_dropped_witness :
    BinaryFormatter.compile (fun _ => List.replicate 8 0)
      { emptyPacket with packetType := 99 } = [] ∧
    BinaryFormatter.format (fun _ => List.replicate 8 0)
      { emptyPacket with packetType := 99 } = [] ∧
    (∀ hasSocket : Bool,
      BinaryFormatter.internalWriteBytes (fun _ => List.replicate 8 0)
        hasSocket { emptyPacket with packetType := 99 } = []) :=
  c10_unknown_type_dropped (fun _ => List.replicate 8 0)
    { emptyPacket with packetType := 99 }
    (by decide) (by decide) (by decide) (by decide) (by decide) (by decide)

end SmartInspect
